import Mathlib

/-!
Verification development for the psychopy repository's two algorithmic cores:
the unit-conversion pipeline (`psychopy/tools/monitorunittools.py`) and the
frame-timing / refresh-rate measurement subsystem
(`psychopy/visual/window.py`).

The conversion functions are embedded over the real numbers (the Python code
computes with floats and transcendental functions); the timing bookkeeping is
embedded over the rationals so that every definition is executable and
concrete runs can be checked by `decide`.
-/

namespace PsychoPy

/-- Error outcomes of the embedded operations.  The Python code raises
`ValueError` with distinct messages (monitor distance unknown, size in pixels
unknown, width in cm unknown, bad array shape, unregistered unit label,
`nIdentical > nMaxFrames`); `nameErr` stands for the `NameError` raised when
a function body references an undefined global name. -/
inductive PsyError where
  | noDistance
  | noSizePix
  | noWidth
  | shapeErr
  | unknownUnit
  | nameErr
  | invalidParam
deriving DecidableEq, Repr

/-- The monitor calibration record as read by `monitorunittools.py`:
`getWidth()` (screen width in cm), `getDistance()` (viewing distance in cm)
and `getSizePix()` (screen size in pixels, `[width, height]`), each of which
may be unset (`None`). -/
structure Monitor where
  width : Option ℝ
  distance : Option ℝ
  sizePix : Option (ℝ × ℝ)

/-- Numpy arrays of rank at most 2, which is the range of shapes the
conversion pipeline is fed (scalars, 1-D vertex components, and (N, m)
vertex matrices).  `arr2 m rows` represents a 2-D array of shape
`(rows.length, m)`; well-formedness (every row of length `m`) is a
hypothesis of the theorems that inspect entries. -/
inductive NpArr where
  | arr0 (x : ℝ)
  | arr1 (xs : List ℝ)
  | arr2 (m : ℕ) (rows : List (List ℝ))

/-- Elementwise application, the meaning of a numpy ufunc / scalar
arithmetic broadcast over a whole array. -/
def NpArr.map (f : ℝ → ℝ) : NpArr → NpArr
  | arr0 x => arr0 (f x)
  | arr1 xs => arr1 (xs.map f)
  | arr2 m rows => arr2 m (rows.map (List.map f))

/-- Numpy `+` on the shape combinations the library uses: equal shapes add
elementwise, a 0-d scalar broadcasts over the other operand, and a 1-D row
broadcasts across the rows of a 2-D array.  (Other rank combinations do not
occur in the embedded call sites.) -/
def NpArr.add : NpArr → NpArr → NpArr
  | arr0 x, arr0 y => arr0 (x + y)
  | arr0 x, arr1 ys => arr1 (ys.map (x + ·))
  | arr0 x, arr2 m rows => arr2 m (rows.map (List.map (x + ·)))
  | arr1 xs, arr0 y => arr1 (xs.map (· + y))
  | arr2 m rows, arr0 y => arr2 m (rows.map (List.map (· + y)))
  | arr1 xs, arr1 ys => arr1 (List.zipWith (· + ·) xs ys)
  | arr1 xs, arr2 m rows => arr2 m (rows.map (List.zipWith (· + ·) xs))
  | arr2 m rows, arr1 ys => arr2 m (rows.map fun r => List.zipWith (· + ·) r ys)
  | arr2 m rows, arr2 _ rows' => arr2 m (List.zipWith (List.zipWith (· + ·)) rows rows')

/-- An (N, 2) array built from a list of coordinate pairs; the canonical
layout of stimulus vertices. -/
def pairsToArr (l : List (ℝ × ℝ)) : NpArr :=
  NpArr.arr2 2 (l.map fun q => [q.1, q.2])

/-- The numpy `.shape` attribute of an array of rank at most 2. -/
def NpArr.shape : NpArr → List ℕ
  | arr0 _ => []
  | arr1 xs => [xs.length]
  | arr2 m rows => [rows.length, m]

/-- `np.radians`: degrees to radians. -/
noncomputable def radiansR (x : ℝ) : ℝ := x * Real.pi / 180

/-- `np.hypot`: Euclidean norm of a pair. -/
noncomputable def hypotR (a b : ℝ) : ℝ := Real.sqrt (a ^ 2 + b ^ 2)

/-- `cm2deg(cm, monitor, correctFlat)` (monitorunittools.py lines 88-101):
raises if the monitor's distance is unset; with `correctFlat=True` returns
`np.arctan(np.radians(cm/dist))` elementwise, otherwise `cm/(dist*0.017455)`. -/
noncomputable def cm2deg (cm : NpArr) (monitor : Monitor) (correctFlat : Bool) :
    Except PsyError NpArr :=
  match monitor.distance with
  | none => .error .noDistance
  | some dist =>
    if correctFlat then
      .ok (cm.map fun c => Real.arctan (radiansR (c / dist)))
    else
      .ok (cm.map fun c => c / (dist * 0.017455))

/-- One row of the flat-corrected degree-to-cm conversion
(monitorunittools.py lines 127-129):
`cmX = hypot(dist, tan(radsY)*dist) * tan(radsX)` and symmetrically for Y. -/
noncomputable def flatRowCm (dist : ℝ) (r : List ℝ) : List ℝ :=
  let rx := radiansR (r.getD 0 0)
  let ry := radiansR (r.getD 1 0)
  [hypotR dist (Real.tan ry * dist) * Real.tan rx,
   hypotR dist (Real.tan rx * dist) * Real.tan ry]

/-- `deg2cm(degrees, monitor, correctFlat)` (monitorunittools.py lines
103-139): raises if distance is unset; with `correctFlat=True` demands shape
`(N, 2)` (`len(degrees.shape)<2 or degrees.shape[1]!=2` raises the shape
error) and applies the coupled flat correction rowwise; otherwise returns
`degrees*dist*0.017455` elementwise. -/
noncomputable def deg2cm (degs : NpArr) (monitor : Monitor) (correctFlat : Bool) :
    Except PsyError NpArr :=
  match monitor.distance with
  | none => .error .noDistance
  | some dist =>
    if correctFlat then
      if degs.shape.length < 2 ∨ degs.shape.getD 1 0 ≠ 2 then .error .shapeErr
      else
        match degs with
        | .arr2 _ rows => .ok (.arr2 2 (rows.map (flatRowCm dist)))
        | _ => .error .shapeErr
    else
      .ok (degs.map fun d => d * dist * 0.017455)

/-- `cm2pix(cm, monitor)` (monitorunittools.py lines 141-154): checks
`getSizePix()` then `getWidth()`, then returns
`cm*scrSizePix[0]/float(scrWidthCm)` elementwise. -/
noncomputable def cm2pix (cm : NpArr) (monitor : Monitor) : Except PsyError NpArr :=
  match monitor.sizePix with
  | none => .error .noSizePix
  | some scrSizePix =>
    match monitor.width with
    | none => .error .noWidth
    | some scrWidthCm => .ok (cm.map fun c => c * scrSizePix.1 / scrWidthCm)

/-- `pix2cm(pixels, monitor)` (monitorunittools.py lines 157-169): same
checks, returns `pixels*float(scrWidthCm)/scrSizePix[0]` elementwise. -/
noncomputable def pix2cm (pixels : NpArr) (monitor : Monitor) : Except PsyError NpArr :=
  match monitor.sizePix with
  | none => .error .noSizePix
  | some scrSizePix =>
    match monitor.width with
    | none => .error .noWidth
    | some scrWidthCm => .ok (pixels.map fun p => p * scrWidthCm / scrSizePix.1)

/-- `deg2pix(degrees, monitor, correctFlat)` (monitorunittools.py lines
171-182): checks `getSizePix()` then `getWidth()`, computes
`cmSize = deg2cm(degrees, monitor, correctFlat)` (which checks the
distance), then returns `cmSize*scrSizePix[0]/float(scrWidthCm)`. -/
noncomputable def deg2pix (degs : NpArr) (monitor : Monitor) (correctFlat : Bool) :
    Except PsyError NpArr :=
  match monitor.sizePix with
  | none => .error .noSizePix
  | some scrSizePix =>
    match monitor.width with
    | none => .error .noWidth
    | some scrWidthCm =>
      (deg2cm degs monitor correctFlat).map
        (fun cmSize => cmSize.map fun c => c * scrSizePix.1 / scrWidthCm)

/-- `pix2deg(pixels, monitor, correctFlat)` (monitorunittools.py lines
184-194): checks `getSizePix()` then `getWidth()`, computes
`cmSize = pixels*float(scrWidthCm)/scrSizePix[0]` and feeds it to `cm2deg`. -/
noncomputable def pix2deg (pixels : NpArr) (monitor : Monitor) (correctFlat : Bool) :
    Except PsyError NpArr :=
  match monitor.sizePix with
  | none => .error .noSizePix
  | some scrSizePix =>
    match monitor.width with
    | none => .error .noWidth
    | some scrWidthCm =>
      cm2deg (pixels.map fun p => p * scrWidthCm / scrSizePix.1) monitor correctFlat

/-- The slice of the window object that the conversion dispatch reads:
`win.monitor` and `win.size` (pixel size of the surface, `[width, height]`). -/
structure Win where
  monitor : Monitor
  size : ℝ × ℝ

/-- Multiplication of an array by the length-2 array `[sx, sy]` (numpy
column broadcast), as performed by `_norm2pix` with `win.size/2.0`.  Modelled
for the shapes the call sites produce (a pair, or rows of pairs). -/
noncomputable def mulXY (a : NpArr) (sx sy : ℝ) : NpArr :=
  match a with
  | .arr0 x => .arr1 [x * sx, x * sy]
  | .arr1 xs => .arr1 [xs.getD 0 0 * sx, xs.getD 1 0 * sy]
  | .arr2 m rows => .arr2 m (rows.map fun r => [r.getD 0 0 * sx, r.getD 1 0 * sy])

/-- `_pix2pix` (line 19-20): `pos+vertices`. -/
noncomputable def _pix2pix (vertices pos : NpArr) (_win : Win) : Except PsyError NpArr :=
  .ok (pos.add vertices)

/-- `_cm2pix` (line 23-24): `cm2pix(pos+vertices, win.monitor)`. -/
noncomputable def _cm2pix (vertices pos : NpArr) (win : Win) : Except PsyError NpArr :=
  cm2pix (pos.add vertices) win.monitor

/-- `_deg2pix` (line 27-28): `deg2pix(pos+vertices, win.monitor)`. -/
noncomputable def _deg2pix (vertices pos : NpArr) (win : Win) : Except PsyError NpArr :=
  deg2pix (pos.add vertices) win.monitor false

/-- `_degFlatPos2pix` (lines 31-34): flat-corrects the position only, then
adds in pixel space. -/
noncomputable def _degFlatPos2pix (vertices pos : NpArr) (win : Win) : Except PsyError NpArr := do
  let posCorrected ← deg2pix pos win.monitor true
  let verts ← deg2pix vertices win.monitor false
  return posCorrected.add verts

/-- `_degFlat2pix` (lines 37-38): `deg2pix(pos+vertices, win.monitor,
correctFlat=True)`. -/
noncomputable def _degFlat2pix (vertices pos : NpArr) (win : Win) : Except PsyError NpArr :=
  deg2pix (pos.add vertices) win.monitor true

/-- `_norm2pix` (lines 41-42): `(pos+vertices) * win.size/2.0`. -/
noncomputable def _norm2pix (vertices pos : NpArr) (win : Win) : Except PsyError NpArr :=
  .ok (mulXY (pos.add vertices) (win.size.1 / 2) (win.size.2 / 2))

/-- `_height2pix` (lines 45-46): `(pos+vertices) * win.size[1]`. -/
noncomputable def _height2pix (vertices pos : NpArr) (win : Win) : Except PsyError NpArr :=
  .ok ((pos.add vertices).map (· * win.size.2))

/-- The `_unit2PixMappings` registry (lines 16-47) with its seven built-in
entries, as a lookup from the unit label. -/
noncomputable def unit2PixFun (units : String) :
    Option (NpArr → NpArr → Win → Except PsyError NpArr) :=
  match units with
  | "pix" => some _pix2pix
  | "cm" => some _cm2pix
  | "deg" => some _deg2pix
  | "degFlatPos" => some _degFlatPos2pix
  | "degFlat" => some _degFlat2pix
  | "norm" => some _norm2pix
  | "height" => some _height2pix
  | _ => none

/-- `convertToPix(vertices, pos, units, win)` (lines 49-62): dispatches on
the registered unit label, raising for unregistered labels. -/
noncomputable def convertToPix (vertices pos : NpArr) (units : String) (win : Win) :
    Except PsyError NpArr :=
  match unit2PixFun units with
  | some f => f vertices pos win
  | none => .error .unknownUnit

/-- `addUnitTypeConversion(unit_label, mapping_func)` (monitorunittools.py
lines 64-82).  The body's first executable statement is
`if unit_label in unit2PixMappings:` — but no global named
`unit2PixMappings` exists in the module (the registry is spelled
`_unit2PixMappings`), and the registration line `unit2PixMappings[...] = ...`
references the same undefined name, so every call raises `NameError` before
reaching the duplicate check or the registration. -/
def addUnitTypeConversion (_unit_label : String)
    (_mapping_func : NpArr → NpArr → Win → Except PsyError NpArr) :
    Except PsyError Unit :=
  .error .nameErr

/-- `true` exactly on the error outcome. -/
def isErr {α : Type} : Except PsyError α → Bool
  | .error _ => true
  | .ok _ => false

/-! ## Frame-timing bookkeeping (`psychopy/visual/window.py`)

The wall clock is modelled by passing the current timestamp (a rational
number of seconds) to each operation that reads it; `frameClock` is modelled
by the timestamp of its last reset (`clockStart`), so its reading at time
`t` is `t - clockStart`.  The logging collaborator is modelled as the list
of messages emitted so far. -/

/-- The module-level constant `reportNDroppedFrames = 5` (window.py line 68). -/
def reportNDroppedFrames : ℕ := 5

/-- The log messages the timing subsystem can emit: the per-drop warning
(window.py line 612), the "multiple dropped frames" notice (line 615), the
"couldn't measure a consistent frame rate" warning (line 1503), and the
measured-rate debug line (line 1497). -/
inductive LogMsg where
  | droppedFrame (deltaT : ℚ)
  | multipleDropped
  | couldNotMeasure
  | frameRateDebug (rate : ℚ)
deriving DecidableEq, Repr

/-- The slice of `Window` state touched by the timing subsystem
(window.py lines 319-346): the recording flag and its grace flag, the
dropped-frame counter, the recorded intervals, the flip counter for `fps`,
the timestamp of the previous flip, the `frameClock` reset time, the
drop-detection threshold `_refreshThreshold`, the `autoLog` flag, and the
log of emitted messages. -/
structure WinState where
  recordFrameIntervals : Bool
  recordFrameIntervalsJustTurnedOn : Bool
  nDroppedFrames : ℕ
  frameIntervals : List ℚ
  frames : ℕ
  lastFrameT : ℚ
  clockStart : ℚ
  refreshThreshold : ℚ
  autoLog : Bool
  warnings : List LogMsg
deriving DecidableEq, Repr

/-- `Window.__init__` lines 342-346: `_refreshThreshold` is
`(1.0/rate)*1.2` when a frame rate was measured and `(1.0/60)*1.2`
("guess its a flat panel") when the measurement returned `None`. -/
def setupRefreshThreshold (measuredRate : Option ℚ) : ℚ :=
  match measuredRate with
  | some rate => (1 / rate) * (12 / 10)
  | none => (1 / 60) * (12 / 10)

/-- `Window.setRecordFrameIntervals(value)` (window.py lines 370-389): sets
the grace flag exactly when recording was off and is being turned on, sets
the recording flag, and resets `frameClock` (modelled by storing the call's
timestamp). -/
def setRecordFrameIntervals (w : WinState) (value : Bool) (now : ℚ) : WinState :=
  { w with
    recordFrameIntervalsJustTurnedOn := !w.recordFrameIntervals && value,
    recordFrameIntervals := value,
    clockStart := now }

/-- The bookkeeping step of `Window.flip` (window.py lines 600-617), with
`now` the post-swap timestamp of line 593.  When recording is on: increment
the flip counter, measure `deltaT` against the previous flip, and — except
on the grace flip right after recording was re-enabled — append the interval
`deltaT = now - lastFrameT` and perform drop detection, warning on each of
the first `reportNDroppedFrames` drops (a per-drop message below the limit,
the suppression notice at it) and staying silent afterwards.  When recording
is off the bookkeeping does nothing (in particular `lastFrameT` is not
updated).  The branch structure of the source is flattened into one record
update per branch so that each field carries its own expression. -/
def flip (w : WinState) (now : ℚ) : WinState :=
  if w.recordFrameIntervals then
    if w.recordFrameIntervalsJustTurnedOn then
      { w with
        frames := w.frames + 1
        lastFrameT := now
        recordFrameIntervalsJustTurnedOn := false }
    else
      { w with
        frames := w.frames + 1
        lastFrameT := now
        frameIntervals := w.frameIntervals ++ [now - w.lastFrameT]
        nDroppedFrames := w.nDroppedFrames +
          (if w.refreshThreshold < now - w.lastFrameT then 1 else 0)
        warnings := w.warnings ++
          (if w.refreshThreshold < now - w.lastFrameT then
            (if w.nDroppedFrames + 1 < reportNDroppedFrames then
              [.droppedFrame (now - w.lastFrameT)]
            else if w.nDroppedFrames + 1 = reportNDroppedFrames then
              [.multipleDropped]
            else [])
          else []) }
  else w

/-- `Window.fps()` (window.py lines 925-931): returns
`frames / frameClock.getTime()` and resets both the counter and the clock. -/
def fps (w : WinState) (now : ℚ) : ℚ × WinState :=
  ((w.frames : ℚ) / (now - w.clockStart),
   { w with clockStart := now, frames := 0 })

/-- A sequence of flips at the given timestamps. -/
def flipSeq (w : WinState) : List ℚ → WinState
  | [] => w
  | t :: ts => flipSeq (flip w t) ts

/-- `j` flips at timestamps `times base`, `times (base+1)`, ...,
`times (base+j-1)`. -/
def flipN (w : WinState) (times : ℕ → ℚ) (base : ℕ) : ℕ → WinState
  | 0 => w
  | j + 1 => flip (flipN w times base j) (times (base + j))

/-- Mean of a sample list, as `numpy.mean` on a nonempty array. -/
def npMean (xs : List ℚ) : ℚ := xs.sum / (xs.length : ℚ)

/-- Population variance (`ddof=0`), the square of `numpy.std` on a nonempty
array. -/
def npVar (xs : List ℚ) : ℚ :=
  ((xs.map fun x => (x - npMean xs) ^ 2).sum) / (xs.length : ℚ)

/-- Python's tail slice `xs[-n:]`: the whole list when `n = 0`, the last `n`
elements otherwise. -/
def lastSlice (xs : List ℚ) (n : ℕ) : List ℚ :=
  if n = 0 then xs else xs.drop (xs.length - n)

/-- `numpy.std(xs) < t`, expressed without square roots: on an empty array
`numpy.std` is `nan` and the comparison is false; on a nonempty array
`std = sqrt(npVar xs) ≥ 0`, and `sqrt v < t ↔ 0 < t ∧ v < t ^ 2`. -/
def stdLtB (xs : List ℚ) (t : ℚ) : Bool :=
  !xs.isEmpty && decide (0 < t) && decide (npVar xs < t ^ 2)

/-- The convergence test of `getActualFrameRate` (window.py lines
1488-1490): `len(frameIntervals) >= nIdentical and
numpy.std(frameIntervals[-nIdentical:]) < threshold/1000.0`. -/
def garCheck (nIdentical : ℕ) (threshold : ℚ) (fi : List ℚ) : Bool :=
  decide (nIdentical ≤ fi.length) && stdLtB (lastSlice fi nIdentical) (threshold / 1000)

/-- The success branch of `getActualFrameRate` (window.py lines 1491-1501):
log the measured rate when `autoLog` is set, restore the recording flag to
its pre-call value (which also resets `frameClock`), and clear the recorded
intervals. -/
def garFinish (w : WinState) (rate : ℚ) (recordOrig : Bool) (now : ℚ) : WinState :=
  let wd := if w.autoLog
    then { w with warnings := w.warnings ++ [.frameRateDebug rate] } else w
  let wr := setRecordFrameIntervals wd recordOrig now
  { wr with frameIntervals := [] }

/-- The test-frame loop of `getActualFrameRate` (window.py lines 1486-1508):
flip, check convergence, and either finish with `1/mean` of the trailing
window or keep going; when the frame budget is exhausted, warn and return
the `None` sentinel. -/
def garLoop (times : ℕ → ℚ) (nWarm nIdentical : ℕ) (threshold : ℚ)
    (recordOrig : Bool) (w : WinState) (j : ℕ) : ℕ → Option ℚ × WinState
  | 0 => (none, { w with warnings := w.warnings ++ [.couldNotMeasure] })
  | fuel + 1 =>
    let w' := flip w (times (nWarm + j))
    if garCheck nIdentical threshold w'.frameIntervals then
      let rate := 1 / npMean (lastSlice w'.frameIntervals nIdentical)
      (some rate, garFinish w' rate recordOrig (times (nWarm + j)))
    else
      garLoop times nWarm nIdentical threshold recordOrig w' (j + 1) fuel

/-- `Window.getActualFrameRate(nIdentical, nMaxFrames, nWarmUpFrames,
threshold)` (window.py lines 1446-1508), driven by a simulated swap source:
`times i` is the post-swap timestamp of the `i`-th flip the call performs.
Raises when `nIdentical > nMaxFrames`; otherwise runs `nWarmUpFrames`
warm-up flips with recording off, turns recording on, and runs the test
loop for at most `nMaxFrames` flips. -/
def getActualFrameRate (w : WinState) (times : ℕ → ℚ)
    (nIdentical nMaxFrames nWarmUpFrames : ℕ) (threshold : ℚ) :
    Except PsyError (Option ℚ × WinState) :=
  if nIdentical > nMaxFrames then .error .invalidParam
  else
    let recordOrig := w.recordFrameIntervals
    let w1 := setRecordFrameIntervals w false (times 0)
    let w2 := flipN w1 times 0 nWarmUpFrames
    let w3 := setRecordFrameIntervals w2 true (times nWarmUpFrames)
    .ok (garLoop times nWarmUpFrames nIdentical threshold recordOrig w3 0 nMaxFrames)

/-- The intervals recorded after `k` test flips of `getActualFrameRate`
that follow at timestamps `times nWarm`, `times (nWarm+1)`, ...: the first
test flip is the grace flip and records nothing, each later flip records
the difference between consecutive timestamps. -/
def testIntervals (times : ℕ → ℚ) (nWarm k : ℕ) : List ℚ :=
  (List.range (k - 1)).map fun i => times (nWarm + i + 1) - times (nWarm + i)

/-- The convergence condition as checked right after the `k`-th test flip
(`1 ≤ k ≤ nMaxFrames`). -/
def Cnd (times : ℕ → ℚ) (nWarm nIdentical : ℕ) (threshold : ℚ) (k : ℕ) : Prop :=
  garCheck nIdentical threshold (testIntervals times nWarm k) = true

instance (times : ℕ → ℚ) (nWarm nIdentical : ℕ) (threshold : ℚ) (k : ℕ) :
    Decidable (Cnd times nWarm nIdentical threshold k) := by
  unfold Cnd; infer_instance

/-! ## Helper lemmas and concrete fixtures -/

theorem NpArr.map_map (f g : ℝ → ℝ) (a : NpArr) :
    (a.map g).map f = a.map (fun x => f (g x)) := by
  cases a <;> simp [NpArr.map, Function.comp_def]

theorem NpArr.map_id_of (f : ℝ → ℝ) (h : ∀ x, f x = x) (a : NpArr) :
    a.map f = a := by
  rw [show f = id from funext h]
  cases a <;> simp [NpArr.map]

/-- The spec's running example calibration: width 40 cm, viewing distance
57 cm, resolution 1024 × 768. -/
noncomputable def mStd : Monitor :=
  { width := some 40, distance := some 57, sizePix := some (1024, 768) }

/-- A calibration whose cm-width is unknown but whose distance and pixel
size are both set. -/
noncomputable def mNoWidth : Monitor :=
  { width := none, distance := some 57, sizePix := some (1024, 768) }

/-! ## C4 — addUnitTypeConversion -/

/-- C4: `addUnitTypeConversion` never reaches its duplicate check or its
registration: the body refers to the undefined global `unit2PixMappings`
(the registry is `_unit2PixMappings`), so every call — here a fresh,
unregistered label with a well-formed mapping function — raises `NameError`
instead of extending the registry or raising the duplicate-registration
error. -/
theorem addUnitTypeConversion_always_name_error :
    addUnitTypeConversion "polar" (fun vertices pos _ => .ok (pos.add vertices))
      = .error .nameErr := rfl

/-! ## C5 — calibration-missing error conditions -/

/-- C5 counterexample: with the cm-width unknown but the viewing distance
and the pixel size both known, `deg2pix` raises — the claim's
"degree↔pixel conversions raise if and only if the viewing distance or
pixel width is unknown" predicts success here. -/
theorem deg2pix_raises_without_cm_width :
    deg2pix (NpArr.arr0 1) mNoWidth false = .error .noWidth
  ∧ mNoWidth.distance ≠ none ∧ mNoWidth.sizePix ≠ none := by
  refine ⟨rfl, ?_, ?_⟩ <;> simp [mNoWidth]

/-- C5 (amended): cm↔pixel conversions raise exactly when the pixel size or
the cm-width is unknown; the uncorrected degree↔pixel conversions raise
exactly when the pixel size, the cm-width, or the viewing distance is
unknown (they also require the cm-width, since they convert through cm);
the uncorrected degree↔cm conversions raise exactly when the distance is
unknown. -/
theorem conversion_error_conditions (m : Monitor) (x : NpArr) :
    (isErr (cm2pix x m) = true ↔ m.sizePix = none ∨ m.width = none)
  ∧ (isErr (pix2cm x m) = true ↔ m.sizePix = none ∨ m.width = none)
  ∧ (isErr (deg2pix x m false) = true ↔
      m.sizePix = none ∨ m.width = none ∨ m.distance = none)
  ∧ (isErr (pix2deg x m false) = true ↔
      m.sizePix = none ∨ m.width = none ∨ m.distance = none)
  ∧ (isErr (cm2deg x m false) = true ↔ m.distance = none)
  ∧ (isErr (deg2cm x m false) = true ↔ m.distance = none) := by
  obtain ⟨w, d, s⟩ := m
  cases w <;> cases d <;> cases s <;>
    simp [cm2pix, pix2cm, deg2pix, pix2deg, cm2deg, deg2cm, isErr, Except.map]

/-! ## C8 — shape contract of flat-corrected deg2cm -/

/-- C8: with the viewing distance set, `deg2cm` with `correctFlat=True`
raises the shape error on every input whose shape is not `(N, 2)` — in
particular on 0-d, 1-D and `(N, m≠2)` inputs — and on every `(N, 2)` input
returns an array of shape `(N, 2)`. -/
theorem deg2cm_flat_shape (m : Monitor) (D : ℝ) (hD : m.distance = some D) :
    (∀ x : NpArr, (x.shape.length < 2 ∨ x.shape.getD 1 0 ≠ 2) →
      deg2cm x m true = .error .shapeErr)
  ∧ (∀ rows, ∃ rows', deg2cm (NpArr.arr2 2 rows) m true = .ok (NpArr.arr2 2 rows')
      ∧ NpArr.shape (NpArr.arr2 2 rows') = [rows.length, 2]) := by
  obtain ⟨w, d, s⟩ := m
  have hd : d = some D := hD
  subst hd
  constructor
  · intro x hx
    simp [deg2cm, if_pos hx]
    intro h1 h2
    rcases hx with h | h
    · omega
    · rw [List.getD_eq_getElem?_getD] at h
      exact absurd h2 h
  · intro rows
    refine ⟨rows.map (flatRowCm D), ?_, ?_⟩
    · simp [deg2cm, NpArr.shape]
    · simp [NpArr.shape]

/-- Witness for C8 at a concrete calibration and a 1-D input. -/
theorem deg2cm_flat_shape_witness :
    deg2cm (NpArr.arr1 [1, 2]) mStd true = .error .shapeErr :=
  (deg2cm_flat_shape mStd 57 rfl).1 (NpArr.arr1 [1, 2]) (by simp [NpArr.shape])

/-! ## C2 — round-trip identities of the standalone conversions -/

/-- C2 (amended): with width, distance and pixel size all set and nonzero,
the three uncorrected conversion pairs are mutual inverses (exactly, in the
real-number model): `pix2cm ∘ cm2pix = id`, `pix2deg ∘ deg2pix = id` and
`cm2deg ∘ deg2cm = id` with `correctFlat = false`, on inputs of every
shape. -/
theorem uncorrected_round_trips (m : Monitor) (W Sx Sy D : ℝ)
    (hW : m.width = some W) (hS : m.sizePix = some (Sx, Sy))
    (hD : m.distance = some D)
    (hW0 : W ≠ 0) (hSx0 : Sx ≠ 0) (hD0 : D ≠ 0) (x : NpArr) :
    (cm2pix x m).bind (fun y => pix2cm y m) = .ok x
  ∧ (deg2pix x m false).bind (fun y => pix2deg y m false) = .ok x
  ∧ (deg2cm x m false).bind (fun y => cm2deg y m false) = .ok x := by
  obtain ⟨w, d, s⟩ := m
  have hw : w = some W := hW
  have hd : d = some D := hD
  have hs : s = some (Sx, Sy) := hS
  subst hw hd hs
  have h17 : (0.017455 : ℝ) ≠ 0 := by norm_num
  refine ⟨?_, ?_, ?_⟩
  · show Except.bind (.ok (x.map fun c => c * Sx / W)) _ = _
    show Except.ok ((x.map fun c => c * Sx / W).map fun p => p * W / Sx) = _
    rw [NpArr.map_map, NpArr.map_id_of]
    intro a
    field_simp
  · show Except.bind (Except.map _ (.ok (x.map fun c => c * D * 0.017455))) _ = _
    show Except.ok ((((x.map fun c => c * D * 0.017455).map
        fun c => c * Sx / W).map fun p => p * W / Sx).map
        fun c => c / (D * 0.017455)) = _
    rw [NpArr.map_map, NpArr.map_map, NpArr.map_map, NpArr.map_id_of]
    intro a
    field_simp
    ring
  · show Except.bind (.ok (x.map fun c => c * D * 0.017455)) _ = _
    show Except.ok ((x.map fun c => c * D * 0.017455).map
        fun c => c / (D * 0.017455)) = _
    rw [NpArr.map_map, NpArr.map_id_of]
    intro a
    field_simp
    ring

/-- Witness for the amended C2 at the spec's example calibration. -/
theorem uncorrected_round_trips_witness :
    (cm2pix (NpArr.arr0 3) mStd).bind (fun y => pix2cm y mStd) = .ok (NpArr.arr0 3) :=
  (uncorrected_round_trips mStd 40 1024 768 57 rfl rfl rfl
    (by norm_num) (by norm_num) (by norm_num) (NpArr.arr0 3)).1

/-- C2 counterexample: with `correctFlat = true` the degree↔cm pair is not a
round trip.  At the spec's example calibration (distance 57 cm), converting
the single vertex `(45°, 0°)` to cm gives `(57, 0)`, but converting that
back yields `(arctan(π/180), 0)` — `cm2deg` flat-corrects with
`arctan(radians(cm/dist))`, which is not the inverse of the coupled flat
`deg2cm` — an error of more than 43 degrees, far beyond floating-point
tolerance. -/
theorem flat_round_trip_fails :
    deg2cm (pairsToArr [(45, 0)]) mStd true = .ok (NpArr.arr2 2 [[57, 0]])
  ∧ cm2deg (NpArr.arr2 2 [[57, 0]]) mStd true
      = .ok (NpArr.arr2 2 [[Real.arctan (Real.pi / 180), 0]])
  ∧ 43 < 45 - Real.arctan (Real.pi / 180)
  ∧ (deg2cm (pairsToArr [(45, 0)]) mStd true).bind (fun y => cm2deg y mStd true)
      ≠ .ok (pairsToArr [(45, 0)]) := by
  have hpi : Real.pi < 3.15 := by
    calc Real.pi < 3.141593 := Real.pi_lt_d6
    _ < 3.15 := by norm_num
  have harctan : Real.arctan (Real.pi / 180) < 2 := by
    calc Real.arctan (Real.pi / 180) < Real.pi / 2 := Real.arctan_lt_pi_div_two _
    _ < 2 := by linarith
  have h1 : deg2cm (pairsToArr [(45, 0)]) mStd true = .ok (NpArr.arr2 2 [[57, 0]]) := by
    show Except.ok (NpArr.arr2 2 [flatRowCm 57 [(45 : ℝ), 0]]) = _
    have hrow : flatRowCm 57 [(45 : ℝ), 0] = [57, 0] := by
      show [hypotR 57 (Real.tan (radiansR 0) * 57) * Real.tan (radiansR 45),
            hypotR 57 (Real.tan (radiansR 45) * 57) * Real.tan (radiansR 0)] = _
      have h0 : radiansR 0 = 0 := by simp [radiansR]
      have h45 : radiansR 45 = Real.pi / 4 := by
        unfold radiansR; ring
      rw [h0, h45, Real.tan_zero, Real.tan_pi_div_four]
      have hh : hypotR 57 (0 * 57) = 57 := by
        simp [hypotR]
      rw [hh]
      norm_num
    rw [hrow]
  have h2 : cm2deg (NpArr.arr2 2 [[57, 0]]) mStd true
      = .ok (NpArr.arr2 2 [[Real.arctan (Real.pi / 180), 0]]) := by
    show Except.ok ((NpArr.arr2 2 [[(57 : ℝ), 0]]).map
        fun c => Real.arctan (radiansR (c / 57))) = _
    have e1 : radiansR 1 = Real.pi / 180 := by
      unfold radiansR; ring
    have e2 : radiansR 0 = 0 := by
      unfold radiansR; ring
    simp [NpArr.map, e1, e2, Real.arctan_zero]
  refine ⟨h1, h2, by linarith, ?_⟩
  rw [h1]
  show cm2deg (NpArr.arr2 2 [[57, 0]]) mStd true ≠ _
  rw [h2]
  intro hcontra
  have hinj : (NpArr.arr2 2 [[Real.arctan (Real.pi / 180), 0]] : NpArr)
      = NpArr.arr2 2 [[(45 : ℝ), 0]] := Except.ok.inj hcontra
  have hrows : ([[Real.arctan (Real.pi / 180), 0]] : List (List ℝ))
      = [[(45 : ℝ), 0]] := by
    injection hinj
  have hval : Real.arctan (Real.pi / 180) = 45 := by
    have h := List.head_eq_of_cons_eq hrows
    exact List.head_eq_of_cons_eq h
  linarith

/-! ## C6 — linearity of combine-then-convert -/

/-- Componentwise addition of coordinate pairs (numpy `+` at row level). -/
def addP (p q : ℝ × ℝ) : ℝ × ℝ := (p.1 + q.1, p.2 + q.2)

theorem zipWith_addP_comm (l l' : List (ℝ × ℝ)) :
    List.zipWith addP l l' = List.zipWith addP l' l := by
  induction l generalizing l' with
  | nil => cases l' <;> simp
  | cons q t ih =>
    cases l' with
    | nil => simp
    | cons q' t' => simp [ih, addP, add_comm]

theorem zipWith_addP_map (g : ℝ × ℝ → ℝ × ℝ)
    (hg : ∀ p q, g (addP p q) = addP (g p) (g q)) :
    ∀ l l' : List (ℝ × ℝ),
      (List.zipWith addP l l').map g = List.zipWith addP (l.map g) (l'.map g) := by
  intro l
  induction l with
  | nil => intro l'; simp
  | cons q t ih =>
    intro l'
    cases l' with
    | nil => simp
    | cons q' t' => simp [hg, ih]

theorem pairsToArr_add (l l' : List (ℝ × ℝ)) :
    (pairsToArr l).add (pairsToArr l') = pairsToArr (List.zipWith addP l l') := by
  simp only [pairsToArr, NpArr.add, NpArr.arr2.injEq, true_and]
  induction l generalizing l' with
  | nil => simp
  | cons q t ih =>
    cases l' with
    | nil => simp
    | cons q' t' => simp [ih, addP]

theorem arr0_add_pairs (l : List (ℝ × ℝ)) :
    (NpArr.arr0 0).add (pairsToArr l) = pairsToArr l := by
  simp [pairsToArr, NpArr.add, List.map_map, Function.comp_def]

theorem pairs_add_arr0 (l : List (ℝ × ℝ)) :
    (pairsToArr l).add (NpArr.arr0 0) = pairsToArr l := by
  simp [pairsToArr, NpArr.add, List.map_map, Function.comp_def]

theorem pairsToArr_mapA (f : ℝ → ℝ) (l : List (ℝ × ℝ)) :
    (pairsToArr l).map f = pairsToArr (l.map fun q => (f q.1, f q.2)) := by
  simp [pairsToArr, NpArr.map, List.map_map, Function.comp_def]

theorem mulXY_pairs (l : List (ℝ × ℝ)) (sx sy : ℝ) :
    mulXY (pairsToArr l) sx sy
      = pairsToArr (l.map fun q => (q.1 * sx, q.2 * sy)) := by
  simp [mulXY, pairsToArr, List.map_map, Function.comp_def]

theorem convertToPix_pix (v p : NpArr) (win : Win) :
    convertToPix v p "pix" win = .ok (p.add v) := rfl

theorem convertToPix_cm (v p : NpArr) (win : Win) :
    convertToPix v p "cm" win = cm2pix (p.add v) win.monitor := rfl

theorem convertToPix_deg (v p : NpArr) (win : Win) :
    convertToPix v p "deg" win = deg2pix (p.add v) win.monitor false := rfl

theorem convertToPix_degFlat (v p : NpArr) (win : Win) :
    convertToPix v p "degFlat" win = deg2pix (p.add v) win.monitor true := rfl

theorem convertToPix_norm (v p : NpArr) (win : Win) :
    convertToPix v p "norm" win
      = .ok (mulXY (p.add v) (win.size.1 / 2) (win.size.2 / 2)) := rfl

theorem convertToPix_height (v p : NpArr) (win : Win) :
    convertToPix v p "height" win = .ok ((p.add v).map (· * win.size.2)) := rfl

theorem radiansR_0 : radiansR 0 = 0 := by
  unfold radiansR; ring

theorem radiansR_45 : radiansR 45 = Real.pi / 4 := by
  unfold radiansR; ring

theorem hypotR_self_zero : hypotR 57 (0 * 57) = 57 := by
  simp [hypotR]

theorem hypotR_57_57 : hypotR 57 57 = Real.sqrt 2 * 57 := by
  unfold hypotR
  rw [show (57 : ℝ) ^ 2 + 57 ^ 2 = 2 * 57 ^ 2 by ring,
      Real.sqrt_mul (by norm_num : (0 : ℝ) ≤ 2),
      Real.sqrt_sq (by norm_num : (0 : ℝ) ≤ 57)]

theorem flatRowCm_0_45 : flatRowCm 57 [(0 : ℝ), 45] = [0, 57] := by
  show [hypotR 57 (Real.tan (radiansR 45) * 57) * Real.tan (radiansR 0),
        hypotR 57 (Real.tan (radiansR 0) * 57) * Real.tan (radiansR 45)] = _
  rw [radiansR_0, radiansR_45, Real.tan_zero, Real.tan_pi_div_four, hypotR_self_zero]
  norm_num

theorem flatRowCm_45_45 :
    flatRowCm 57 [(45 : ℝ), 45] = [Real.sqrt 2 * 57, Real.sqrt 2 * 57] := by
  show [hypotR 57 (Real.tan (radiansR 45) * 57) * Real.tan (radiansR 45),
        hypotR 57 (Real.tan (radiansR 45) * 57) * Real.tan (radiansR 45)] = _
  rw [radiansR_45, Real.tan_pi_div_four]
  rw [show (1 : ℝ) * 57 = 57 by norm_num, hypotR_57_57]
  norm_num

theorem deg2cm_flat_45_0_c6 :
    deg2cm (pairsToArr [(45, 0)]) mStd true = .ok (NpArr.arr2 2 [[57, 0]]) := by
  show Except.ok (NpArr.arr2 2 [flatRowCm 57 [(45 : ℝ), 0]]) = _
  have hrow : flatRowCm 57 [(45 : ℝ), 0] = [57, 0] := by
    show [hypotR 57 (Real.tan (radiansR 0) * 57) * Real.tan (radiansR 45),
          hypotR 57 (Real.tan (radiansR 45) * 57) * Real.tan (radiansR 0)] = _
    rw [radiansR_0, radiansR_45, Real.tan_zero, Real.tan_pi_div_four, hypotR_self_zero]
    norm_num
  rw [hrow]

theorem deg2cm_flat_0_45_c6 :
    deg2cm (pairsToArr [(0, 45)]) mStd true = .ok (NpArr.arr2 2 [[0, 57]]) := by
  show Except.ok (NpArr.arr2 2 [flatRowCm 57 [(0 : ℝ), 45]]) = _
  rw [flatRowCm_0_45]

theorem deg2cm_flat_45_45_c6 :
    deg2cm (pairsToArr [(45, 45)]) mStd true
      = .ok (NpArr.arr2 2 [[Real.sqrt 2 * 57, Real.sqrt 2 * 57]]) := by
  show Except.ok (NpArr.arr2 2 [flatRowCm 57 [(45 : ℝ), 45]]) = _
  rw [flatRowCm_45_45]

/-- C6: for the linear unit spaces (`pix`, `cm`, `deg`, `norm`, `height`)
combine-then-convert equals convert-then-combine — `convertToPix(v, p)` is
the pixel-space sum of `convertToPix(v, 0)` and `convertToPix(0, p)` — for
every vertex and position list and every fully calibrated window; and for
`degFlat` there is a window and a vertex/position pair on which the equality
fails. -/
theorem convertToPix_additivity (win : Win) (W Sx Sy D s1 s2 : ℝ)
    (hW : win.monitor.width = some W) (hS : win.monitor.sizePix = some (Sx, Sy))
    (hD : win.monitor.distance = some D) (hsz : win.size = (s1, s2))
    (hW0 : W ≠ 0) (hSx0 : Sx ≠ 0)
    (vs ps : List (ℝ × ℝ)) :
    (∀ u ∈ ["pix", "cm", "deg", "norm", "height"],
      ∃ a b c, convertToPix (pairsToArr vs) (NpArr.arr0 0) u win = .ok a
        ∧ convertToPix (NpArr.arr0 0) (pairsToArr ps) u win = .ok b
        ∧ convertToPix (pairsToArr vs) (pairsToArr ps) u win = .ok c
        ∧ c = a.add b)
  ∧ (∃ (win' : Win) (vs' ps' : List (ℝ × ℝ)) (a b c : NpArr),
      convertToPix (pairsToArr vs') (NpArr.arr0 0) "degFlat" win' = .ok a
        ∧ convertToPix (NpArr.arr0 0) (pairsToArr ps') "degFlat" win' = .ok b
        ∧ convertToPix (pairsToArr vs') (pairsToArr ps') "degFlat" win' = .ok c
        ∧ c ≠ a.add b) := by
  obtain ⟨⟨w, d, s⟩, sz⟩ := win
  have hw : w = some W := hW
  have hd : d = some D := hD
  have hs : s = some (Sx, Sy) := hS
  have hsz' : sz = (s1, s2) := hsz
  subst hw hd hs hsz'
  constructor
  · intro u hu
    have key : ∀ g : ℝ × ℝ → ℝ × ℝ, (∀ p q, g (addP p q) = addP (g p) (g q)) →
        pairsToArr ((List.zipWith addP ps vs).map g)
          = (pairsToArr (vs.map g)).add (pairsToArr (ps.map g)) := by
      intro g hg
      rw [pairsToArr_add, ← zipWith_addP_map g hg, zipWith_addP_comm ps vs]
    simp only [List.mem_cons, List.not_mem_nil, or_false] at hu
    rcases hu with rfl | rfl | rfl | rfl | rfl
    · -- pix
      refine ⟨pairsToArr vs, pairsToArr ps, pairsToArr (List.zipWith addP ps vs),
        ?_, ?_, ?_, ?_⟩
      · rw [convertToPix_pix, arr0_add_pairs]
      · rw [convertToPix_pix, pairs_add_arr0]
      · rw [convertToPix_pix, pairsToArr_add]
      · rw [pairsToArr_add, zipWith_addP_comm ps vs]
    · -- cm
      refine ⟨pairsToArr (vs.map fun q => (q.1 * Sx / W, q.2 * Sx / W)),
        pairsToArr (ps.map fun q => (q.1 * Sx / W, q.2 * Sx / W)),
        pairsToArr ((List.zipWith addP ps vs).map fun q => (q.1 * Sx / W, q.2 * Sx / W)),
        ?_, ?_, ?_, ?_⟩
      · rw [convertToPix_cm, arr0_add_pairs]
        show Except.ok ((pairsToArr vs).map fun c => c * Sx / W) = _
        rw [pairsToArr_mapA]
      · rw [convertToPix_cm, pairs_add_arr0]
        show Except.ok ((pairsToArr ps).map fun c => c * Sx / W) = _
        rw [pairsToArr_mapA]
      · rw [convertToPix_cm, pairsToArr_add]
        show Except.ok ((pairsToArr (List.zipWith addP ps vs)).map fun c => c * Sx / W) = _
        rw [pairsToArr_mapA]
      · exact key _ (by
          intro p q
          rw [Prod.ext_iff]
          constructor <;> simp [addP] <;> ring)
    · -- deg
      refine ⟨pairsToArr (vs.map fun q => (q.1 * D * 0.017455 * Sx / W, q.2 * D * 0.017455 * Sx / W)),
        pairsToArr (ps.map fun q => (q.1 * D * 0.017455 * Sx / W, q.2 * D * 0.017455 * Sx / W)),
        pairsToArr ((List.zipWith addP ps vs).map
          fun q => (q.1 * D * 0.017455 * Sx / W, q.2 * D * 0.017455 * Sx / W)),
        ?_, ?_, ?_, ?_⟩
      · rw [convertToPix_deg, arr0_add_pairs]
        show Except.ok (((pairsToArr vs).map fun c => c * D * 0.017455).map
          fun c => c * Sx / W) = _
        rw [NpArr.map_map, pairsToArr_mapA]
      · rw [convertToPix_deg, pairs_add_arr0]
        show Except.ok (((pairsToArr ps).map fun c => c * D * 0.017455).map
          fun c => c * Sx / W) = _
        rw [NpArr.map_map, pairsToArr_mapA]
      · rw [convertToPix_deg, pairsToArr_add]
        show Except.ok (((pairsToArr (List.zipWith addP ps vs)).map
          fun c => c * D * 0.017455).map fun c => c * Sx / W) = _
        rw [NpArr.map_map, pairsToArr_mapA]
      · exact key _ (by
          intro p q
          rw [Prod.ext_iff]
          constructor <;> simp [addP] <;> ring)
    · -- norm
      refine ⟨pairsToArr (vs.map fun q => (q.1 * (s1 / 2), q.2 * (s2 / 2))),
        pairsToArr (ps.map fun q => (q.1 * (s1 / 2), q.2 * (s2 / 2))),
        pairsToArr ((List.zipWith addP ps vs).map
          fun q => (q.1 * (s1 / 2), q.2 * (s2 / 2))),
        ?_, ?_, ?_, ?_⟩
      · rw [convertToPix_norm, arr0_add_pairs]
        show Except.ok (mulXY (pairsToArr vs) (s1 / 2) (s2 / 2)) = _
        rw [mulXY_pairs]
      · rw [convertToPix_norm, pairs_add_arr0]
        show Except.ok (mulXY (pairsToArr ps) (s1 / 2) (s2 / 2)) = _
        rw [mulXY_pairs]
      · rw [convertToPix_norm, pairsToArr_add]
        show Except.ok (mulXY (pairsToArr (List.zipWith addP ps vs)) (s1 / 2) (s2 / 2)) = _
        rw [mulXY_pairs]
      · exact key _ (by
          intro p q
          rw [Prod.ext_iff]
          constructor <;> simp [addP] <;> ring)
    · -- height
      refine ⟨pairsToArr (vs.map fun q => (q.1 * s2, q.2 * s2)),
        pairsToArr (ps.map fun q => (q.1 * s2, q.2 * s2)),
        pairsToArr ((List.zipWith addP ps vs).map fun q => (q.1 * s2, q.2 * s2)),
        ?_, ?_, ?_, ?_⟩
      · rw [convertToPix_height, arr0_add_pairs]
        show Except.ok ((pairsToArr vs).map fun c => c * s2) = _
        rw [pairsToArr_mapA]
      · rw [convertToPix_height, pairs_add_arr0]
        show Except.ok ((pairsToArr ps).map fun c => c * s2) = _
        rw [pairsToArr_mapA]
      · rw [convertToPix_height, pairsToArr_add]
        show Except.ok ((pairsToArr (List.zipWith addP ps vs)).map fun c => c * s2) = _
        rw [pairsToArr_mapA]
      · exact key _ (by
          intro p q
          rw [Prod.ext_iff]
          constructor <;> simp [addP] <;> ring)
  · -- degFlat fails
    refine ⟨⟨mStd, (800, 600)⟩, [(45, 0)], [(0, 45)],
      NpArr.arr2 2 [[(57 : ℝ) * 1024 / 40, 0 * 1024 / 40]],
      NpArr.arr2 2 [[(0 : ℝ) * 1024 / 40, 57 * 1024 / 40]],
      NpArr.arr2 2 [[Real.sqrt 2 * 57 * 1024 / 40, Real.sqrt 2 * 57 * 1024 / 40]],
      ?_, ?_, ?_, ?_⟩
    · rw [convertToPix_degFlat, arr0_add_pairs]
      show Except.map _ (deg2cm (pairsToArr [(45, 0)]) mStd true) = _
      rw [deg2cm_flat_45_0_c6]
      rfl
    · rw [convertToPix_degFlat, pairs_add_arr0]
      show Except.map _ (deg2cm (pairsToArr [(0, 45)]) mStd true) = _
      rw [deg2cm_flat_0_45_c6]
      rfl
    · rw [convertToPix_degFlat, pairsToArr_add]
      rw [show List.zipWith addP [((0 : ℝ), (45 : ℝ))] [((45 : ℝ), (0 : ℝ))]
            = [((45 : ℝ), (45 : ℝ))] by simp [addP]]
      show Except.map _ (deg2cm (pairsToArr [(45, 45)]) mStd true) = _
      rw [deg2cm_flat_45_45_c6]
      rfl
    · intro hcon
      have hrows : ([[Real.sqrt 2 * 57 * 1024 / 40, Real.sqrt 2 * 57 * 1024 / 40]]
          : List (List ℝ))
          = List.zipWith (List.zipWith (· + ·))
            [[(57 : ℝ) * 1024 / 40, 0 * 1024 / 40]]
            [[(0 : ℝ) * 1024 / 40, 57 * 1024 / 40]] := by
        injection hcon
      simp only [List.zipWith] at hrows
      have hrow := List.head_eq_of_cons_eq hrows
      have hval := List.head_eq_of_cons_eq hrow
      have ht : Real.sqrt 2 = 1 := by
        ring_nf at hval
        linarith
      have h2 : Real.sqrt 2 ^ 2 = 2 := Real.sq_sqrt (by norm_num)
      rw [ht] at h2
      norm_num at h2

/-- Witness for C6 at a concrete calibrated window (`pix` unit space). -/
theorem convertToPix_additivity_witness :
    ∃ a b c, convertToPix (pairsToArr [(1, 2)]) (NpArr.arr0 0) "pix" ⟨mStd, (800, 600)⟩ = .ok a
      ∧ convertToPix (NpArr.arr0 0) (pairsToArr [(3, 4)]) "pix" ⟨mStd, (800, 600)⟩ = .ok b
      ∧ convertToPix (pairsToArr [(1, 2)]) (pairsToArr [(3, 4)]) "pix" ⟨mStd, (800, 600)⟩ = .ok c
      ∧ c = a.add b :=
  (convertToPix_additivity ⟨mStd, (800, 600)⟩ 40 1024 768 57 800 600
    rfl rfl rfl rfl (by norm_num) (by norm_num) [(1, 2)] [(3, 4)]).1
    "pix" (by simp)

/-! ## Flip-step helper lemmas -/

/-- With recording off, the flip bookkeeping does nothing. -/
theorem flip_off (s : WinState) (t : ℚ) (h : s.recordFrameIntervals = false) :
    flip s t = s := by
  simp [flip, h]

/-- The grace flip: recording on and the just-turned-on flag set — the flip
counter and the last-flip timestamp advance, the flag clears, and no
interval is recorded. -/
theorem flip_grace (s : WinState) (t : ℚ)
    (h1 : s.recordFrameIntervals = true)
    (h2 : s.recordFrameIntervalsJustTurnedOn = true) :
    flip s t = { s with
      frames := s.frames + 1
      lastFrameT := t
      recordFrameIntervalsJustTurnedOn := false } := by
  obtain ⟨r, g, nd, fi, fr, lt, cs, rt, al, wn⟩ := s
  have hr : r = true := h1
  have hg : g = true := h2
  subst hr hg
  rfl

/-- A steady recording flip (recording on, grace flag clear): exactly one
interval is appended and the flags persist. -/
theorem flip_steady (s : WinState) (t : ℚ)
    (h1 : s.recordFrameIntervals = true)
    (h2 : s.recordFrameIntervalsJustTurnedOn = false) :
    (flip s t).frameIntervals = s.frameIntervals ++ [t - s.lastFrameT]
  ∧ (flip s t).recordFrameIntervals = true
  ∧ (flip s t).recordFrameIntervalsJustTurnedOn = false
  ∧ (flip s t).lastFrameT = t
  ∧ (flip s t).frames = s.frames + 1
  ∧ (flip s t).autoLog = s.autoLog
  ∧ (flip s t).refreshThreshold = s.refreshThreshold
  ∧ (flip s t).clockStart = s.clockStart := by
  obtain ⟨r, g, nd, fi, fr, lt, cs, rt, al, wn⟩ := s
  have hr : r = true := h1
  have hg : g = false := h2
  subst hr hg
  exact ⟨rfl, rfl, rfl, rfl, rfl, rfl, rfl, rfl⟩

/-- A fresh window state: recording off, no samples, clocks at zero. -/
def w0c : WinState :=
  { recordFrameIntervals := false
    recordFrameIntervalsJustTurnedOn := false
    nDroppedFrames := 0
    frameIntervals := []
    frames := 0
    lastFrameT := 0
    clockStart := 0
    refreshThreshold := 1
    autoLog := false
    warnings := [] }

/-- A window state in steady recording, calibrated at 60 Hz. -/
def wc3 : WinState :=
  { recordFrameIntervals := true
    recordFrameIntervalsJustTurnedOn := false
    nDroppedFrames := 0
    frameIntervals := []
    frames := 0
    lastFrameT := 0
    clockStart := 0
    refreshThreshold := setupRefreshThreshold (some 60)
    autoLog := false
    warnings := [] }

/-! ## C3 — per-flip interval recording and drop detection -/

/-- C3: on a steady recording flip (recording on, grace flag clear) with the
threshold set up from the measured refresh rate as in `__init__`, the measured
interval is appended, the dropped-frame counter increments exactly when the
interval exceeds the threshold (`1.2×` the calibrated period, `1.2/60` when
the rate could not be measured), and a diagnostic is emitted exactly on each
of the first `reportNDroppedFrames = 5` drops, silence afterwards. -/
theorem flip_bookkeeping (mRate : Option ℚ) (w : WinState) (now : ℚ)
    (hrec : w.recordFrameIntervals = true)
    (hgrace : w.recordFrameIntervalsJustTurnedOn = false)
    (hthr : w.refreshThreshold = setupRefreshThreshold mRate) :
    (flip w now).frameIntervals = w.frameIntervals ++ [now - w.lastFrameT]
  ∧ (flip w now).nDroppedFrames = w.nDroppedFrames +
      (if setupRefreshThreshold mRate < now - w.lastFrameT then 1 else 0)
  ∧ ((flip w now).warnings ≠ w.warnings ↔
      (setupRefreshThreshold mRate < now - w.lastFrameT
        ∧ w.nDroppedFrames + 1 ≤ reportNDroppedFrames))
  ∧ (∀ r : ℚ, setupRefreshThreshold (some r) = (1 / r) * (12 / 10))
  ∧ setupRefreshThreshold none = (1 / 60) * (12 / 10) := by
  obtain ⟨r, g, nd, fi, fr, lt, cs, rt, al, wn⟩ := w
  have hr : r = true := hrec
  have hg : g = false := hgrace
  have ht : rt = setupRefreshThreshold mRate := hthr
  subst hr hg ht
  have happ : ∀ x : LogMsg, wn ++ [x] ≠ wn := by
    intro x h
    have := congrArg List.length h
    simp at this
  refine ⟨rfl, rfl, ?_, fun _ => rfl, rfl⟩
  show wn ++ (if setupRefreshThreshold mRate < now - lt then
      (if nd + 1 < reportNDroppedFrames then [LogMsg.droppedFrame (now - lt)]
       else if nd + 1 = reportNDroppedFrames then [LogMsg.multipleDropped]
       else [])
      else []) ≠ wn ↔
    (setupRefreshThreshold mRate < now - lt ∧ nd + 1 ≤ reportNDroppedFrames)
  by_cases hdrop : setupRefreshThreshold mRate < now - lt
  · by_cases h5 : nd + 1 < reportNDroppedFrames
    · rw [if_pos hdrop, if_pos h5]
      exact ⟨fun _ => ⟨hdrop, by omega⟩, fun _ => happ _⟩
    · by_cases heq : nd + 1 = reportNDroppedFrames
      · rw [if_pos hdrop, if_neg h5, if_pos heq]
        exact ⟨fun _ => ⟨hdrop, by omega⟩, fun _ => happ _⟩
      · rw [if_pos hdrop, if_neg h5, if_neg heq, List.append_nil]
        exact ⟨fun h => absurd rfl h, fun h => by omega⟩
  · rw [if_neg hdrop, List.append_nil]
    exact ⟨fun h => absurd rfl h, fun h => absurd h.1 hdrop⟩

/-- Witness for C3: a concrete 60 Hz-calibrated state and a 100 ms interval
(a drop). -/
theorem flip_bookkeeping_witness :
    (flip wc3 (1 / 10)).frameIntervals = [1 / 10]
  ∧ (flip wc3 (1 / 10)).nDroppedFrames = 1
  ∧ (flip wc3 (1 / 10)).warnings ≠ [] := by
  have h := flip_bookkeeping (some 60) wc3 (1 / 10) rfl rfl rfl
  refine ⟨?_, ?_, ?_⟩
  · rw [h.1]; norm_num [wc3]
  · rw [h.2.1]; norm_num [wc3, setupRefreshThreshold]
  · exact h.2.2.1.mpr ⟨by norm_num [wc3, setupRefreshThreshold], by norm_num [wc3, reportNDroppedFrames]⟩

/-! ## C7 — the one-sample grace period -/

/-- C7: turning recording on from the off state makes exactly the first
subsequent flip record no interval, and every later flip (recording staying
on, no further toggles) records exactly one — after the toggle and `k`
flips, exactly `k - 1` samples have been appended. -/
theorem grace_period_discards_one (w : WinState) (t0 : ℚ) (ts : List ℚ)
    (hoff : w.recordFrameIntervals = false) :
    (flipSeq (setRecordFrameIntervals w true t0) ts).frameIntervals.length
      = w.frameIntervals.length + (ts.length - 1) := by
  have steady : ∀ (l : List ℚ) (s : WinState), s.recordFrameIntervals = true →
      s.recordFrameIntervalsJustTurnedOn = false →
      (flipSeq s l).frameIntervals.length = s.frameIntervals.length + l.length := by
    intro l
    induction l with
    | nil => intro s _ _; simp [flipSeq]
    | cons t l' ih =>
      intro s h1 h2
      have hs := flip_steady s t h1 h2
      show (flipSeq (flip s t) l').frameIntervals.length = _
      rw [ih (flip s t) hs.2.1 hs.2.2.1, hs.1]
      simp
      omega
  cases ts with
  | nil => simp [flipSeq, setRecordFrameIntervals]
  | cons t ts' =>
    have hgr_rec : (setRecordFrameIntervals w true t0).recordFrameIntervals = true := by
      simp [setRecordFrameIntervals]
    have hgr_on : (setRecordFrameIntervals w true t0).recordFrameIntervalsJustTurnedOn
        = true := by
      simp [setRecordFrameIntervals, hoff]
    have hfg := flip_grace _ t hgr_rec hgr_on
    show (flipSeq (flip (setRecordFrameIntervals w true t0) t) ts').frameIntervals.length = _
    rw [hfg, steady ts' _ (by simp [setRecordFrameIntervals]) rfl]
    simp [setRecordFrameIntervals]

/-- Witness for C7: from a fresh state, toggling recording on and flipping
three times records exactly two samples. -/
theorem grace_period_discards_one_witness :
    (flipSeq (setRecordFrameIntervals w0c true 0) [1, 2, 3]).frameIntervals.length = 2 := by
  have h := grace_period_discards_one w0c 0 [1, 2, 3] rfl
  simpa [w0c] using h

/-! ## C9 — the fps counter -/

/-- C9 counterexample: a flip performed while recording is off does not
contribute to the `frames` counter, so `fps` does not report the number of
buffer swaps since the last call: after one swap and two elapsed seconds it
returns `0`, not `1/2`. -/
theorem fps_ignores_unrecorded_flips :
    w0c.recordFrameIntervals = false
  ∧ (flip w0c 1).frames = 0
  ∧ (fps (flip w0c 1) 2).1 = 0
  ∧ ((1 : ℚ) / 2 ≠ 0) := by
  have h0 : flip w0c 1 = w0c := flip_off w0c 1 rfl
  refine ⟨rfl, ?_, ?_, by norm_num⟩
  · rw [h0]
    rfl
  · rw [h0]
    show ((0 : ℕ) : ℚ) / (2 - 0) = 0
    norm_num

/-- C9 (amended): `fps` returns the value of the `frames` counter divided by
the elapsed frame-clock seconds and resets both the counter and the clock;
each flip increments the counter exactly when frame-interval recording is
enabled (unrecorded flips do not count). -/
theorem fps_spec (w : WinState) (now : ℚ) :
    (fps w now).1 = (w.frames : ℚ) / (now - w.clockStart)
  ∧ (fps w now).2.frames = 0
  ∧ (fps w now).2.clockStart = now
  ∧ ∀ t : ℚ, (flip w t).frames
      = w.frames + (if w.recordFrameIntervals then 1 else 0) := by
  refine ⟨rfl, rfl, rfl, ?_⟩
  intro t
  by_cases hr : w.recordFrameIntervals
  · by_cases hg : w.recordFrameIntervalsJustTurnedOn
    · simp [flip, hr, hg]
    · simp [flip, hr, hg]
  · simp [flip, hr]

/-! ## C1 / C10 — getActualFrameRate -/

/-- Flips with recording off leave the state unchanged. -/
theorem flipN_off (w : WinState) (times : ℕ → ℚ) (base : ℕ)
    (h : w.recordFrameIntervals = false) : ∀ n, flipN w times base n = w := by
  intro n
  induction n with
  | zero => rfl
  | succ n ih =>
    show flip (flipN w times base n) (times (base + n)) = w
    rw [ih, flip_off w _ h]

theorem testIntervals_zero (times : ℕ → ℚ) (nWarm : ℕ) :
    testIntervals times nWarm 0 = [] := rfl

theorem testIntervals_succ (times : ℕ → ℚ) (nWarm j : ℕ) (hj : 1 ≤ j) :
    testIntervals times nWarm (j + 1)
      = testIntervals times nWarm j
        ++ [times (nWarm + j) - times (nWarm + j - 1)] := by
  obtain ⟨i, rfl⟩ : ∃ i, j = i + 1 := ⟨j - 1, by omega⟩
  show ((List.range (i + 1 + 1 - 1)).map
      fun n => times (nWarm + n + 1) - times (nWarm + n)) = _
  rw [show i + 1 + 1 - 1 = i + 1 from rfl, List.range_succ, List.map_append]
  rfl

/-- The state trajectory of the test phase: starting from a state with
recording on, the grace flag set and no recorded intervals (the state right
after `setRecordFrameIntervals(True)` in `getActualFrameRate`), after `j`
test flips the recorded intervals are exactly the consecutive timestamp
differences (the first flip recording nothing). -/
theorem testTraj (times : ℕ → ℚ) (nWarm : ℕ) (s : WinState)
    (hr : s.recordFrameIntervals = true)
    (hg : s.recordFrameIntervalsJustTurnedOn = true)
    (hfi : s.frameIntervals = []) :
    ∀ j : ℕ,
      (flipN s times nWarm j).recordFrameIntervals = true
    ∧ (flipN s times nWarm j).recordFrameIntervalsJustTurnedOn = decide (j = 0)
    ∧ (flipN s times nWarm j).frameIntervals = testIntervals times nWarm j
    ∧ (1 ≤ j → (flipN s times nWarm j).lastFrameT = times (nWarm + j - 1)) := by
  intro j
  induction j with
  | zero =>
    refine ⟨hr, by simp [flipN, hg], by simp [flipN, hfi, testIntervals], ?_⟩
    intro h; omega
  | succ j ih =>
    obtain ⟨ih1, ih2, ih3, ih4⟩ := ih
    have hstep : flipN s times nWarm (j + 1)
        = flip (flipN s times nWarm j) (times (nWarm + j)) := rfl
    by_cases hj : j = 0
    · subst hj
      have hg' : (flipN s times nWarm 0).recordFrameIntervalsJustTurnedOn = true := by
        simpa using ih2
      rw [hstep, flip_grace (flipN s times nWarm 0) (times (nWarm + 0)) ih1 hg']
      refine ⟨ih1, by simp, ?_, ?_⟩
      · show (flipN s times nWarm 0).frameIntervals = _
        rw [ih3]
        rfl
      · intro _
        rfl
    · have hg' : (flipN s times nWarm j).recordFrameIntervalsJustTurnedOn = false := by
        rw [ih2]; simp [hj]
      have hs := flip_steady (flipN s times nWarm j) (times (nWarm + j)) ih1 hg'
      rw [hstep]
      refine ⟨hs.2.1, by rw [hs.2.2.1]; simp, ?_, ?_⟩
      · rw [hs.1, ih3, ih4 (by omega), testIntervals_succ times nWarm j (by omega)]
      · intro _
        rw [hs.2.2.2.1, show nWarm + (j + 1) - 1 = nWarm + j from by omega]

/-- Unfolding of the success branch of the test loop: if the convergence
condition first holds right after the `k`-th test flip, the loop returns
`1/mean` of the trailing window at that point and the finished state. -/
theorem garLoop_success (times : ℕ → ℚ) (nWarm nId : ℕ) (thr : ℚ) (rOrig : Bool)
    (s : WinState)
    (hr : s.recordFrameIntervals = true)
    (hg : s.recordFrameIntervalsJustTurnedOn = true)
    (hfi : s.frameIntervals = []) :
    ∀ fuel j k, j < k → k ≤ j + fuel →
      Cnd times nWarm nId thr k →
      (∀ i, j < i → i < k → ¬ Cnd times nWarm nId thr i) →
      garLoop times nWarm nId thr rOrig (flipN s times nWarm j) j fuel
        = (some (1 / npMean (lastSlice (testIntervals times nWarm k) nId)),
           garFinish (flipN s times nWarm k)
             (1 / npMean (lastSlice (testIntervals times nWarm k) nId))
             rOrig (times (nWarm + k - 1))) := by
  intro fuel
  induction fuel with
  | zero =>
    intro j k h1 h2 _ _
    omega
  | succ f ih =>
    intro j k hjk hkle hc hmin
    have hfi' : (flipN s times nWarm (j + 1)).frameIntervals
        = testIntervals times nWarm (j + 1) :=
      (testTraj times nWarm s hr hg hfi (j + 1)).2.2.1
    simp only [garLoop]
    rw [show flip (flipN s times nWarm j) (times (nWarm + j))
          = flipN s times nWarm (j + 1) from rfl]
    rw [hfi']
    by_cases hk : k = j + 1
    · subst hk
      rw [if_pos (show garCheck nId thr (testIntervals times nWarm (j + 1)) = true from hc),
        show nWarm + (j + 1) - 1 = nWarm + j from by omega]
    · have hnc : ¬ Cnd times nWarm nId thr (j + 1) := hmin (j + 1) (by omega) (by omega)
      rw [if_neg (show ¬ garCheck nId thr (testIntervals times nWarm (j + 1)) = true from hnc)]
      exact ih (j + 1) k (by omega) (by omega) hc
        (fun i hi1 hi2 => hmin i (by omega) hi2)

/-- Unfolding of the failure branch: if the condition holds at no step
within the frame budget, the loop returns the `None` sentinel and appends
the diagnostic. -/
theorem garLoop_fail (times : ℕ → ℚ) (nWarm nId : ℕ) (thr : ℚ) (rOrig : Bool)
    (s : WinState)
    (hr : s.recordFrameIntervals = true)
    (hg : s.recordFrameIntervalsJustTurnedOn = true)
    (hfi : s.frameIntervals = []) :
    ∀ fuel j, (∀ i, j < i → i ≤ j + fuel → ¬ Cnd times nWarm nId thr i) →
      garLoop times nWarm nId thr rOrig (flipN s times nWarm j) j fuel
        = (none, { flipN s times nWarm (j + fuel) with
            warnings := (flipN s times nWarm (j + fuel)).warnings
              ++ [.couldNotMeasure] }) := by
  intro fuel
  induction fuel with
  | zero =>
    intro j _
    rfl
  | succ f ih =>
    intro j hmin
    have hfi' : (flipN s times nWarm (j + 1)).frameIntervals
        = testIntervals times nWarm (j + 1) :=
      (testTraj times nWarm s hr hg hfi (j + 1)).2.2.1
    simp only [garLoop]
    rw [show flip (flipN s times nWarm j) (times (nWarm + j))
          = flipN s times nWarm (j + 1) from rfl]
    rw [hfi']
    have hnc : ¬ Cnd times nWarm nId thr (j + 1) := hmin (j + 1) (by omega) (by omega)
    rw [if_neg (show ¬ garCheck nId thr (testIntervals times nWarm (j + 1)) = true from hnc)]
    have := ih (j + 1) (fun i hi1 hi2 => hmin i (by omega) (by omega))
    rw [show j + 1 + f = j + (f + 1) from by omega] at this
    exact this

/-- The state `getActualFrameRate` reaches right before its test loop:
recording turned off, `nWarmUpFrames` warm-up flips (no-ops on the
bookkeeping), recording turned back on. -/
def w3Of (w : WinState) (times : ℕ → ℚ) (nWarm : ℕ) : WinState :=
  setRecordFrameIntervals
    (flipN (setRecordFrameIntervals w false (times 0)) times 0 nWarm)
    true (times nWarm)

theorem w3Of_record (w : WinState) (times : ℕ → ℚ) (nWarm : ℕ) :
    (w3Of w times nWarm).recordFrameIntervals = true := rfl

theorem w3Of_grace (w : WinState) (times : ℕ → ℚ) (nWarm : ℕ) :
    (w3Of w times nWarm).recordFrameIntervalsJustTurnedOn = true := by
  unfold w3Of
  rw [flipN_off _ _ _ rfl]
  rfl

theorem w3Of_fi (w : WinState) (times : ℕ → ℚ) (nWarm : ℕ)
    (hfi : w.frameIntervals = []) :
    (w3Of w times nWarm).frameIntervals = [] := by
  unfold w3Of
  rw [flipN_off _ _ _ rfl]
  exact hfi

theorem getActualFrameRate_eq (w : WinState) (times : ℕ → ℚ)
    (nIdentical nMaxFrames nWarmUpFrames : ℕ) (threshold : ℚ)
    (hle : nIdentical ≤ nMaxFrames) :
    getActualFrameRate w times nIdentical nMaxFrames nWarmUpFrames threshold
      = .ok (garLoop times nWarmUpFrames nIdentical threshold
          w.recordFrameIntervals (w3Of w times nWarmUpFrames) 0 nMaxFrames) := by
  unfold getActualFrameRate w3Of
  rw [if_neg (by omega : ¬ nIdentical > nMaxFrames)]

theorem garFinish_record (w : WinState) (rate : ℚ) (rOrig : Bool) (now : ℚ) :
    (garFinish w rate rOrig now).recordFrameIntervals = rOrig := rfl

theorem garFinish_frameIntervals (w : WinState) (rate : ℚ) (rOrig : Bool) (now : ℚ) :
    (garFinish w rate rOrig now).frameIntervals = [] := rfl

/-- The identity-timestamp swap source: the `i`-th flip completes at `i`
seconds (constant 1 s intervals). -/
def timesN : ℕ → ℚ := fun i => (i : ℚ)

/-- A swap source whose intervals keep growing (flip `i` at `i²` seconds),
so no trailing window ever stabilises. -/
def timesSq : ℕ → ℚ := fun i => ((i * i : ℕ) : ℚ)

/-- C1: for every fresh run (no previously recorded intervals) with
`nIdentical ≤ nMaxFrames`, driven by an arbitrary simulated swap source:
if the convergence condition (`nIdentical` recorded intervals with
`std < threshold/1000`, i.e. `Cnd`) first holds after the `k`-th test flip
within the budget, the call returns `1/mean` of the trailing `nIdentical`
intervals at that point; if the condition holds at no step within
`nMaxFrames` test flips, the call returns the `None` sentinel (an `ok`
value, not an error) after emitting the could-not-measure diagnostic. -/
theorem getActualFrameRate_behaviour (w : WinState) (times : ℕ → ℚ)
    (nIdentical nMaxFrames nWarmUpFrames : ℕ) (threshold : ℚ)
    (hfi : w.frameIntervals = []) (hle : nIdentical ≤ nMaxFrames) :
    (∀ k, 1 ≤ k → k ≤ nMaxFrames →
      Cnd times nWarmUpFrames nIdentical threshold k →
      (∀ i, 1 ≤ i → i < k → ¬ Cnd times nWarmUpFrames nIdentical threshold i) →
      ∃ w', getActualFrameRate w times nIdentical nMaxFrames nWarmUpFrames threshold
        = .ok (some (1 / npMean (lastSlice (testIntervals times nWarmUpFrames k) nIdentical)),
               w'))
  ∧ ((∀ k, 1 ≤ k → k ≤ nMaxFrames →
        ¬ Cnd times nWarmUpFrames nIdentical threshold k) →
      ∃ w', getActualFrameRate w times nIdentical nMaxFrames nWarmUpFrames threshold
          = .ok (none, w')
        ∧ LogMsg.couldNotMeasure ∈ w'.warnings) := by
  have heq := getActualFrameRate_eq w times nIdentical nMaxFrames nWarmUpFrames
    threshold hle
  constructor
  · intro k hk1 hk2 hc hmin
    have hrun := garLoop_success times nWarmUpFrames nIdentical threshold
      w.recordFrameIntervals (w3Of w times nWarmUpFrames) (w3Of_record _ _ _)
      (w3Of_grace _ _ _) (w3Of_fi _ _ _ hfi)
      nMaxFrames 0 k (by omega) (by omega) hc (fun i hi1 hi2 => hmin i (by omega) hi2)
    exact ⟨_, heq.trans (congrArg Except.ok hrun)⟩
  · intro hnone
    have hrun := garLoop_fail times nWarmUpFrames nIdentical threshold
      w.recordFrameIntervals (w3Of w times nWarmUpFrames) (w3Of_record _ _ _)
      (w3Of_grace _ _ _) (w3Of_fi _ _ _ hfi)
      nMaxFrames 0 (fun i hi1 hi2 => hnone i (by omega) (by omega))
    exact ⟨_, heq.trans (congrArg Except.ok hrun), by simp⟩

/-- Witness for C1: constant 1 s intervals converge after the third test
flip (two recorded intervals, zero deviation). -/
theorem getActualFrameRate_behaviour_witness :
    ∃ w', getActualFrameRate w0c timesN 2 3 1 1
      = .ok (some (1 / npMean (lastSlice (testIntervals timesN 1 3) 2)), w') :=
  (getActualFrameRate_behaviour w0c timesN 2 3 1 1 rfl (by omega)).1 3
    (by omega) (by omega)
    (by
      show garCheck 2 1 (testIntervals timesN 1 3) = true
      norm_num [garCheck, stdLtB, npVar, npMean, lastSlice, testIntervals, timesN,
        List.range_succ])
    (by
      intro i h1 h2
      interval_cases i <;> simp only [Cnd] <;>
        norm_num [garCheck, stdLtB, npVar, npMean, lastSlice, testIntervals, timesN,
          List.range_succ])

/-- C10: on the converged outcome `getActualFrameRate` restores the
recording flag to its pre-call value and clears `frameIntervals`; on the
unmeasurable outcome it leaves recording enabled (`true`, regardless of the
pre-call value) and leaves the collected samples in `frameIntervals`. -/
theorem getActualFrameRate_state_effects (w : WinState) (times : ℕ → ℚ)
    (nIdentical nMaxFrames nWarmUpFrames : ℕ) (threshold : ℚ)
    (hfi : w.frameIntervals = []) (hle : nIdentical ≤ nMaxFrames) :
    (∀ k, 1 ≤ k → k ≤ nMaxFrames →
      Cnd times nWarmUpFrames nIdentical threshold k →
      (∀ i, 1 ≤ i → i < k → ¬ Cnd times nWarmUpFrames nIdentical threshold i) →
      ∃ r w', getActualFrameRate w times nIdentical nMaxFrames nWarmUpFrames threshold
          = .ok (some r, w')
        ∧ w'.recordFrameIntervals = w.recordFrameIntervals
        ∧ w'.frameIntervals = [])
  ∧ ((∀ k, 1 ≤ k → k ≤ nMaxFrames →
        ¬ Cnd times nWarmUpFrames nIdentical threshold k) →
      ∃ w', getActualFrameRate w times nIdentical nMaxFrames nWarmUpFrames threshold
          = .ok (none, w')
        ∧ w'.recordFrameIntervals = true
        ∧ w'.frameIntervals = testIntervals times nWarmUpFrames nMaxFrames) := by
  have heq := getActualFrameRate_eq w times nIdentical nMaxFrames nWarmUpFrames
    threshold hle
  constructor
  · intro k hk1 hk2 hc hmin
    have hrun := garLoop_success times nWarmUpFrames nIdentical threshold
      w.recordFrameIntervals (w3Of w times nWarmUpFrames) (w3Of_record _ _ _)
      (w3Of_grace _ _ _) (w3Of_fi _ _ _ hfi)
      nMaxFrames 0 k (by omega) (by omega) hc
      (fun i hi1 hi2 => hmin i (by omega) hi2)
    exact ⟨_, _, heq.trans (congrArg Except.ok hrun),
      garFinish_record _ _ _ _, garFinish_frameIntervals _ _ _ _⟩
  · intro hnone
    have hrun := garLoop_fail times nWarmUpFrames nIdentical threshold
      w.recordFrameIntervals (w3Of w times nWarmUpFrames) (w3Of_record _ _ _)
      (w3Of_grace _ _ _) (w3Of_fi _ _ _ hfi)
      nMaxFrames 0 (fun i hi1 hi2 => hnone i (by omega) (by omega))
    have htraj := testTraj times nWarmUpFrames (w3Of w times nWarmUpFrames)
      (w3Of_record _ _ _) (w3Of_grace _ _ _) (w3Of_fi _ _ _ hfi) (0 + nMaxFrames)
    refine ⟨_, heq.trans (congrArg Except.ok hrun), ?_, ?_⟩
    · exact htraj.1
    · show (flipN (w3Of w times nWarmUpFrames) times nWarmUpFrames
          (0 + nMaxFrames)).frameIntervals = testIntervals times nWarmUpFrames nMaxFrames
      rw [htraj.2.2.1, Nat.zero_add]

/-- Witness for C10: a never-stabilising swap source exhausts the budget;
recording is left on and the samples are left in place. -/
theorem getActualFrameRate_state_effects_witness :
    ∃ w', getActualFrameRate w0c timesSq 2 3 1 1 = .ok (none, w')
      ∧ w'.recordFrameIntervals = true
      ∧ w'.frameIntervals = testIntervals timesSq 1 3 :=
  (getActualFrameRate_state_effects w0c timesSq 2 3 1 1 rfl (by omega)).2
    (by
      intro k h1 h2
      interval_cases k <;> simp only [Cnd] <;>
        norm_num [garCheck, stdLtB, npVar, npMean, lastSlice, testIntervals, timesSq,
          List.range_succ])

end PsychoPy
